import Mathlib

/-!
Verification of the `profile` package of the PhilipBorgesen/minecraft
repository (Go). The definitions below are a shallow embedding of the Go
source: untyped JSON values are modelled by an inductive `Json` type, Go
type assertions (which panic on mismatch) are modelled by `Except Unit`
computations whose `.error ()` outcome stands for a panic, `nil` slices and
`nil` pointers are modelled by `Option`, and the HTTP transport is an
explicit oracle argument supplying the decoded JSON (or transport error)
that `internal.FetchJSON` / `internal.ExchangeJSON` would return.
-/

deriving instance DecidableEq for Except

namespace Minecraft

/-- Untyped decoded JSON as produced by Go `encoding/json` into
`interface{}`: objects are association lists, numbers are modelled by `Int`
(all numeric payload fields of this package are integral timestamps). -/
inductive Json where
  | null
  | bool (b : Bool)
  | num (n : Int)
  | str (s : String)
  | arr (elems : List Json)
  | obj (fields : List (String × Json))

/-- Go `time.Time` as used by this package: either the zero value
(`time.Time{}`, what a freshly made `PastName` holds) or a value produced
by `time.Unix(sec, nsec)`. -/
inductive GoTime where
  | zero
  | unix (sec nsec : Int)
deriving DecidableEq, Repr

/-- The player model enumeration from profile.go: `Steve` (classic, the
zero value) or `Alex` (slim-armed). -/
inductive Model where
  | Steve
  | Alex
deriving DecidableEq, Repr

/-- `PastName` from profile.go: one of a profile's past usernames and the
instant it stopped being used. -/
structure PastName where
  name : String
  untilTime : GoTime
deriving DecidableEq, Repr

/-- `Properties` from profile.go: skin URL, cape URL and player model.
The Go zero value has empty URLs and model `Steve`. -/
structure Properties where
  skinURL : String := ""
  capeURL : String := ""
  model : Model := .Steve
deriving DecidableEq, Repr

/-- `Profile` from profile.go. `nameHistory = none` models the nil slice
sentinel ("not loaded"); `some []` models a non-nil empty slice.
`properties = none` models the nil pointer. -/
structure Profile where
  id : String
  name : String
  nameHistory : Option (List PastName) := none
  properties : Option Properties := none
deriving DecidableEq, Repr

/-- The error values this package can return, mirroring errors.go and the
`internal` package. `urlError` is Go `*url.Error` (with `op`, `url` and a
wrapped inner error); `failedRequest` is `*internal.FailedRequestError`;
`unknownFormat` is `internal.ErrUnknownFormat`; `other` stands for any
further transport error (e.g. a cancellation error), identified by a tag. -/
inductive GoErr where
  | noSuchProfile
  | unsetPlayerID
  | tooManyRequests
  | maxSizeExceeded (size : Nat)
  | unknownFormat
  | failedRequest (statusCode : Nat) (errorCode errorMessage : String)
  | urlError (op url : String) (inner : GoErr)
  | other (tag : String)
deriving DecidableEq, Repr

/-- Go type assertion `j.(map[string]interface{})`; panics (`.error ()`)
unless the value is a JSON object. -/
def asObj : Json → Except Unit (List (String × Json))
  | .obj fields => .ok fields
  | _ => .error ()

/-- Go type assertion `j.([]interface{})`. -/
def asArr : Json → Except Unit (List Json)
  | .arr elems => .ok elems
  | _ => .error ()

/-- Go type assertion `j.(bool)`. -/
def asBool : Json → Except Unit Bool
  | .bool b => .ok b
  | _ => .error ()

/-- Go type assertion `j.(float64)` on a decoded JSON number followed by
the `int64(...)` conversion; panics on non-numbers (including the `nil`
obtained from an absent key). -/
def asNum : Json → Except Unit Int
  | .num n => .ok n
  | _ => .error ()

/-- Go `m[key].(string)`: an absent key yields the `nil` interface value
whose string assertion panics, as does a non-string value. -/
def asStrField (m : List (String × Json)) (key : String) : Except Unit String :=
  match List.lookup key m with
  | some (.str s) => .ok s
  | _ => .error ()

/-- Go `m[key]` for a subsequent non-string assertion: an absent key is the
`nil` interface value, modelled by `Json.null`. -/
def fieldOrNull (m : List (String × Json)) (key : String) : Json :=
  match List.lookup key m with
  | some j => j
  | none => .null

/-- `msToTime` from load.go: converts epoch milliseconds to a `time.Time`
via `time.Unix(ms/1000, (ms - (ms/1000)*1000) * 1000000)`. Go integer
division truncates toward zero, which is `Int.tdiv`. -/
def msToTime (ms : Int) : GoTime :=
  .unix (Int.tdiv ms 1000) ((ms - (Int.tdiv ms 1000) * 1000) * 1000000)

/-- `UnwrapFailedRequestError` from internal/common.go: succeeds exactly
when the error is a `*url.Error` whose wrapped error is a
`*FailedRequestError`. -/
def unwrapFailedRequestError : GoErr → Option (Nat × String × String)
  | .urlError _ _ (.failedRequest status code msg) => some (status, code, msg)
  | _ => none

/-- `transformError` from load.go: rewrites a wrapped failed request with
status 204 to `ErrNoSuchProfile`, else one with error code
`"TooManyRequestsException"` to `ErrTooManyRequests`, and returns every
other error unchanged. -/
def transformError (src : GoErr) : GoErr :=
  match unwrapFailedRequestError src with
  | some (status, code, _) =>
    if status = 204 then .noSuchProfile
    else if code = "TooManyRequestsException" then .tooManyRequests
    else src
  | none => src

/-- `isEven` from load.go, over the byte value of a character of the
player ID: numeric parity for ASCII digits, inverted parity for `a`-`f`,
and a panic (modelled as `.error ()`) for every other byte. -/
def isEven (c : Nat) : Except Unit Bool :=
  if 48 ≤ c ∧ c ≤ 57 then .ok (c % 2 = 0)
  else if 97 ≤ c ∧ c ≤ 102 then .ok (c % 2 = 1)
  else .error ()

/-- Go string byte indexing `s[i]` (the IDs handled by `defaultModel` are
ASCII, where byte and character positions coincide); an out-of-range index
panics. -/
def strByte (s : String) (i : Nat) : Except Unit Nat :=
  match s.data.get? i with
  | some c => .ok c.toNat
  | none => .error ()

/-- `defaultModel` from load.go: the parity-XOR derivation of the default
player model from byte positions 7, 23, 15 and 31 of the 32-hex-character
profile ID, evaluated in the same order as the Go expression. -/
def defaultModel (uuid : String) : Except Unit Model := do
  let e7 ← isEven (← strByte uuid 7)
  let e23 ← isEven (← strByte uuid 23)
  let e15 ← isEven (← strByte uuid 15)
  let e31 ← isEven (← strByte uuid 31)
  pure (if (e7 != e23) != (e15 != e31) then .Alex else .Steve)

/-- Spec-side predicate transcribed from the claim for comparison with the
code: `even(c)` holds exactly for the characters {0,2,4,6,8,a,c,e}. -/
def specEven (c : Char) : Bool :=
  c ∈ ['0', '2', '4', '6', '8', 'a', 'c', 'e']

/-- The 16 lowercase hexadecimal characters `[0-9a-f]` (ASCII byte ranges
48-57 and 97-102), the domain on which `isEven` succeeds. -/
def isLowerHex (c : Char) : Bool :=
  (48 ≤ c.toNat && c.toNat ≤ 57) || (97 ≤ c.toNat && c.toNat ≤ 102)

/-- Spec-side model formula transcribed from the claim:
Alex iff `(even(id[7]) XOR even(id[23])) XOR (even(id[15]) XOR even(id[31]))`. -/
def specDefaultModel (s : String) : Model :=
  if (specEven (s.data.getD 7 ' ') != specEven (s.data.getD 23 ' '))
      != (specEven (s.data.getD 15 ' ') != specEven (s.data.getD 31 ' ')) then
    .Alex
  else
    .Steve

theorem isEven_of_lowerHex (c : Char) (h : isLowerHex c = true) :
    isEven c.toNat = .ok (specEven c) := by
  have hc : c = Char.ofNat c.toNat := (Char.ofNat_toNat c).symm
  have hrange : (48 ≤ c.toNat ∧ c.toNat ≤ 57) ∨ (97 ≤ c.toNat ∧ c.toNat ≤ 102) := by
    simpa [isLowerHex, Bool.or_eq_true, Bool.and_eq_true, decide_eq_true_eq] using h
  generalize hn : c.toNat = n at hc hrange
  subst hc
  rcases hrange with ⟨h1, h2⟩ | ⟨h1, h2⟩ <;> interval_cases n <;> decide

theorem isEven_error_of_not_lowerHex (c : Char) (h : ¬ isLowerHex c = true) :
    isEven c.toNat = .error () := by
  have hrange : ¬ ((48 ≤ c.toNat ∧ c.toNat ≤ 57) ∨ (97 ≤ c.toNat ∧ c.toNat ≤ 102)) := by
    simpa [isLowerHex, Bool.or_eq_true, Bool.and_eq_true, decide_eq_true_eq] using h
  unfold isEven
  rw [if_neg, if_neg] <;> omega

theorem exceptBind_ok {ε α β : Type} (a : α) (f : α → Except ε β) :
    (Except.ok a : Except ε α) >>= f = f a := rfl

theorem exceptBind_error {ε α β : Type} (e : ε) (f : α → Except ε β) :
    (Except.error e : Except ε α) >>= f = Except.error e := rfl

theorem exceptPure_def {ε α : Type} (a : α) :
    (pure a : Except ε α) = Except.ok a := rfl

theorem strByte_ok (s : String) (p : Nat) (hp : p < s.length) :
    strByte s p = .ok ((s.data.getD p ' ').toNat) := by
  have hp2 : p < s.data.length := hp
  unfold strByte
  rw [List.get?_eq_getElem? s.data p, List.getElem?_eq_getElem hp2,
    List.getD_eq_getElem s.data ' ' hp2]

theorem getD_mem_of_lt (l : List Char) (p : Nat) (hp : p < l.length) :
    l.getD p ' ' ∈ l := by
  rw [List.getD_eq_getElem l ' ' hp]
  exact List.getElem_mem hp

/-- C2: on a 32-character lowercase-hex ID, `defaultModel` returns Alex
exactly when the claim's parity-XOR formula (with `even` true exactly on
{0,2,4,6,8,a,c,e}) says so, and Steve otherwise; if any of the four
inspected positions holds a character outside `[0-9a-f]`, it panics
(modelled as `.error ()`) instead of silently defaulting. -/
theorem c2_defaultModel_matches_spec (s : String) (hlen : s.length = 32) :
    ((∀ c ∈ s.data, isLowerHex c = true) →
      defaultModel s = .ok (specDefaultModel s)) ∧
    (¬ (isLowerHex (s.data.getD 7 ' ') = true ∧ isLowerHex (s.data.getD 15 ' ') = true ∧
        isLowerHex (s.data.getD 23 ' ') = true ∧ isLowerHex (s.data.getD 31 ' ') = true) →
      defaultModel s = .error ()) := by
  have h7 := strByte_ok s 7 (by omega)
  have h15 := strByte_ok s 15 (by omega)
  have h23 := strByte_ok s 23 (by omega)
  have h31 := strByte_ok s 31 (by omega)
  have hlen2 : s.data.length = 32 := hlen
  constructor
  · intro hall
    have l7 := isEven_of_lowerHex _ (hall _ (getD_mem_of_lt s.data 7 (by omega)))
    have l15 := isEven_of_lowerHex _ (hall _ (getD_mem_of_lt s.data 15 (by omega)))
    have l23 := isEven_of_lowerHex _ (hall _ (getD_mem_of_lt s.data 23 (by omega)))
    have l31 := isEven_of_lowerHex _ (hall _ (getD_mem_of_lt s.data 31 (by omega)))
    simp only [defaultModel, h7, h15, h23, h31, exceptBind_ok, l7, l15, l23, l31,
      exceptPure_def, specDefaultModel]
  · intro hbad
    push_neg at hbad
    simp only [defaultModel, h7, h15, h23, h31, exceptBind_ok]
    by_cases b7 : isLowerHex (s.data.getD 7 ' ') = true
    case neg =>
      simp only [isEven_error_of_not_lowerHex _ b7, exceptBind_error]
    case pos =>
      simp only [isEven_of_lowerHex _ b7, exceptBind_ok]
      by_cases b23 : isLowerHex (s.data.getD 23 ' ') = true
      case neg =>
        simp only [isEven_error_of_not_lowerHex _ b23, exceptBind_error]
      case pos =>
        simp only [isEven_of_lowerHex _ b23, exceptBind_ok]
        by_cases b15 : isLowerHex (s.data.getD 15 ' ') = true
        case neg =>
          simp only [isEven_error_of_not_lowerHex _ b15, exceptBind_error]
        case pos =>
          simp only [isEven_of_lowerHex _ b15, exceptBind_ok]
          have b31 : ¬ isLowerHex (s.data.getD 31 ' ') = true := by
            intro hx
            exact absurd hx (hbad b7 b15 b23)
          simp only [isEven_error_of_not_lowerHex _ b31, exceptBind_error, map_eq_pure_bind,
            exceptBind_error]

/-- Witness for C2 at the concrete ID from the repository's examples:
`087cc153c3434ff7ac497de1569affa1` is all-lowercase-hex of length 32 and
its derived default model is Steve. -/
theorem c2_defaultModel_matches_spec_witness :
    ("087cc153c3434ff7ac497de1569affa1".length = 32 ∧
      defaultModel "087cc153c3434ff7ac497de1569affa1" = .ok Model.Steve) ∧
    specDefaultModel "087cc153c3434ff7ac497de1569affa1" = Model.Steve := by
  refine ⟨⟨by decide, ?_⟩, by decide⟩
  have h := (c2_defaultModel_matches_spec "087cc153c3434ff7ac497de1569affa1" (by decide)).1
    (by decide)
  rw [h]
  decide

/-- The zero value a `make`-allocated `[]PastName` slice is filled with. -/
def zeroPastName : PastName := { name := "", untilTime := .zero }

/-- Go `hist[k].Name = nm` on a slice of `PastName`. -/
def setNameAt (hist : List PastName) (k : Nat) (nm : String) : List PastName :=
  hist.set k { name := nm, untilTime := (hist.getD k zeroPastName).untilTime }

/-- Go `hist[k].Until = t` on a slice of `PastName`. -/
def setUntilAt (hist : List PastName) (k : Nat) (t : GoTime) : List PastName :=
  hist.set k { name := (hist.getD k zeroPastName).name, untilTime := t }

/-- The `if v, ok := m["changedToAt"]; ok && i > 0` statement of the
`buildHistory` loop: when the key is present and `i > 0`, assert the value
is a number and write `hist[h+1].Until` (position `histLen - i`). -/
def untilWrite (histLen i : Nat) (hist : List PastName) (ct : Option Json) :
    Except Unit (List PastName) :=
  match ct with
  | some u =>
    if 0 < i then
      match asNum u with
      | .error e => .error e
      | .ok ms => .ok (setUntilAt hist (histLen - i) (msToTime ms))
    else .ok hist
  | none => .ok hist

/-- The loop of `buildHistory` from load.go, with `histLen = len(arr) - 1`
fixed, `i` the loop index and `hist` the slice under construction. Go's
descending cursor `h` equals `histLen - 1 - i`, so the two writes
`hist[h+1].Until` and `hist[h].Name` target `histLen - i` and
`histLen - 1 - i`. The loop breaks at `i == histLen` (the final element),
where the current name is read instead of a past one. -/
def histLoop (histLen : Nat) : List Json → Nat → List PastName →
    Except Unit (String × List PastName)
  | [], _, hist => .ok ("", hist)
  | v :: rest, i, hist =>
    match asObj v with
    | .error e => .error e
    | .ok m =>
      match untilWrite histLen i hist (List.lookup "changedToAt" m) with
      | .error e => .error e
      | .ok hist1 =>
        match asStrField m "name" with
        | .error e => .error e
        | .ok nm =>
          if i = histLen then .ok (nm, hist1)
          else histLoop histLen rest (i + 1) (setNameAt hist1 (histLen - 1 - i) nm)

/-- `buildHistory` from load.go: an empty array yields `("", nil)`; a
non-empty array of `n` entry objects yields the current username together
with a non-nil history slice of length `n - 1` filled in by the loop. -/
def buildHistory (arr : List Json) : Except Unit (String × Option (List PastName)) :=
  if arr.length = 0 then .ok ("", none)
  else
    match histLoop (arr.length - 1) arr 0 (List.replicate (arr.length - 1) zeroPastName) with
    | .error e => .error e
    | .ok (name, hist) => .ok (name, some hist)

/-- A well-formed element of the name-history payload: a required `name`
and an optional integral `changedToAt` (epoch milliseconds). -/
structure NameEntry where
  name : String
  changedToAt : Option Int
deriving DecidableEq, Repr

/-- The JSON object a `NameEntry` stands for. -/
def entryJson (e : NameEntry) : Json :=
  .obj (("name", .str e.name) ::
    (match e.changedToAt with
     | some ms => [("changedToAt", .num ms)]
     | none => []))

/-- The `Until` value an entry's `changedToAt` stamp produces: absent
stamps leave the zero `time.Time`. -/
def untilOf (e : NameEntry) : GoTime :=
  match e.changedToAt with
  | some ms => msToTime ms
  | none => .zero

/-- The `PastName` recording that `prev`'s name was used until the instant
its payload successor `next` was adopted. -/
def pastOf (prev next : NameEntry) : PastName :=
  { name := prev.name, untilTime := untilOf next }

/-- The history `buildHistory` actually produces for a well-formed payload
`es` (chronological, oldest first, current name last): the consecutive
pairs of `es`, reversed — i.e. most recently superseded name first. -/
def expectedHist (es : List NameEntry) : List PastName :=
  ((es.zip es.tail).map (fun pq => pastOf pq.1 pq.2)).reverse

theorem getD_set_eq {α : Type} (l : List α) (i : Nat) (v d : α) (h : i < l.length) :
    (l.set i v).getD i d = v := by
  rw [List.getD_eq_getElem _ _ (by simpa using h)]
  simp [List.getElem_set]

theorem getD_set_ne {α : Type} (l : List α) (i j : Nat) (v d : α) (h : i ≠ j) :
    (l.set i v).getD j d = l.getD j d := by
  by_cases hj : j < l.length
  · rw [List.getD_eq_getElem _ _ (by simpa using hj), List.getD_eq_getElem _ _ hj]
    simp [List.getElem_set, h]
  · rw [List.getD_eq_default _ _ (by simpa using Nat.le_of_not_lt hj),
      List.getD_eq_default _ _ (Nat.le_of_not_lt hj)]

theorem length_setNameAt (hist : List PastName) (k : Nat) (nm : String) :
    (setNameAt hist k nm).length = hist.length := by
  simp [setNameAt]

theorem length_setUntilAt (hist : List PastName) (k : Nat) (t : GoTime) :
    (setUntilAt hist k t).length = hist.length := by
  simp [setUntilAt]

theorem getD_setNameAt_eq (hist : List PastName) (k : Nat) (nm : String)
    (h : k < hist.length) :
    (setNameAt hist k nm).getD k zeroPastName =
      { name := nm, untilTime := (hist.getD k zeroPastName).untilTime } :=
  getD_set_eq _ _ _ _ h

theorem getD_setNameAt_ne (hist : List PastName) (k j : Nat) (nm : String) (h : k ≠ j) :
    (setNameAt hist k nm).getD j zeroPastName = hist.getD j zeroPastName :=
  getD_set_ne _ _ _ _ _ h

theorem getD_setUntilAt_eq (hist : List PastName) (k : Nat) (t : GoTime)
    (h : k < hist.length) :
    (setUntilAt hist k t).getD k zeroPastName =
      { name := (hist.getD k zeroPastName).name, untilTime := t } :=
  getD_set_eq _ _ _ _ h

theorem getD_setUntilAt_ne (hist : List PastName) (k j : Nat) (t : GoTime) (h : k ≠ j) :
    (setUntilAt hist k t).getD j zeroPastName = hist.getD j zeroPastName :=
  getD_set_ne _ _ _ _ _ h

theorem asObj_entryJson (e : NameEntry) :
    asObj (entryJson e) = .ok (("name", .str e.name) ::
      (match e.changedToAt with
       | some ms => [("changedToAt", .num ms)]
       | none => [])) := rfl

theorem lookup_changedToAt_entry (e : NameEntry) :
    List.lookup "changedToAt" (("name", Json.str e.name) ::
      (match e.changedToAt with
       | some ms => [("changedToAt", Json.num ms)]
       | none => [])) = e.changedToAt.map Json.num := by
  cases e.changedToAt <;> rfl

theorem asStrField_name_entry (e : NameEntry) :
    asStrField (("name", Json.str e.name) ::
      (match e.changedToAt with
       | some ms => [("changedToAt", Json.num ms)]
       | none => [])) "name" = .ok e.name := by
  cases e.changedToAt <;> rfl


/-- Default entry used with `List.getD` when indexing payload entries. -/
def dEntry : NameEntry := { name := "", changedToAt := none }

/-- The pure effect of `untilWrite` on a well-formed entry: write the
converted `changedToAt` (when present and `0 < i`) to position
`histLen - i`. -/
def histWrite (histLen i : Nat) (hist : List PastName) (e : NameEntry) : List PastName :=
  match e.changedToAt with
  | some ms => if 0 < i then setUntilAt hist (histLen - i) (msToTime ms) else hist
  | none => hist

theorem untilWrite_entry (histLen i : Nat) (hist : List PastName) (e : NameEntry) :
    untilWrite histLen i hist (e.changedToAt.map Json.num) =
      .ok (histWrite histLen i hist e) := by
  cases h : e.changedToAt with
  | none => simp only [untilWrite, histWrite, h, Option.map_none']
  | some ms =>
    simp only [untilWrite, histWrite, h, Option.map_some', asNum]
    split <;> rfl

theorem length_histWrite (histLen i : Nat) (hist : List PastName) (e : NameEntry) :
    (histWrite histLen i hist e).length = hist.length := by
  cases h : e.changedToAt with
  | none => simp only [histWrite, h]
  | some ms =>
    simp only [histWrite, h]
    split
    · exact length_setUntilAt _ _ _
    · rfl

theorem histWrite_getD_ne (histLen i : Nat) (hist : List PastName) (e : NameEntry)
    (k : Nat) (hk : histLen - i ≠ k) :
    (histWrite histLen i hist e).getD k zeroPastName = hist.getD k zeroPastName := by
  cases h : e.changedToAt with
  | none => simp only [histWrite, h]
  | some ms =>
    simp only [histWrite, h]
    split
    · exact getD_setUntilAt_ne _ _ _ _ hk
    · rfl

theorem histWrite_getD_eq (histLen i : Nat) (hist : List PastName) (e : NameEntry)
    (hpos : 0 < i) (hlen : hist.length = histLen) (hile : i ≤ histLen)
    (hz : (hist.getD (histLen - i) zeroPastName).untilTime = .zero) :
    (histWrite histLen i hist e).getD (histLen - i) zeroPastName =
      { name := (hist.getD (histLen - i) zeroPastName).name, untilTime := untilOf e } := by
  cases h : e.changedToAt with
  | none =>
    simp only [histWrite, h, untilOf]
    rw [← hz]
  | some ms =>
    simp only [histWrite, h, untilOf, if_pos hpos]
    exact getD_setUntilAt_eq _ _ _ (by omega)

/-- Loop invariant for `histLoop`: processing the suffix `suf` of a
well-formed payload from loop index `i0` onward, over a slice `hist` of
length `histLen` whose positions at or below `histLen - i0` still hold the
zero `Until`, succeeds, returns the last payload entry's name, and yields
the slice whose final positions (`k + i0 < histLen`) pair the name of
payload entry `histLen-1-k` with the `changedToAt` stamp of its successor
entry `histLen-k`, whose boundary position (`k + i0 = histLen`, touched
only when `0 < i0`) receives the suffix head's stamp as its `Until`, and
whose remaining positions are untouched. -/
theorem histLoop_spec (histLen : Nat) :
    ∀ (suf : List NameEntry) (hne : suf ≠ []) (i0 : Nat) (hist : List PastName),
    i0 + suf.length = histLen + 1 →
    hist.length = histLen →
    (∀ k, k < histLen → k + i0 ≤ histLen →
      (hist.getD k zeroPastName).untilTime = .zero) →
    ∃ hist3,
      histLoop histLen (suf.map entryJson) i0 hist = .ok ((suf.getLast hne).name, hist3) ∧
      hist3.length = histLen ∧
      ∀ k, k < histLen →
        hist3.getD k zeroPastName =
          if k + i0 < histLen then
            pastOf (suf.getD (histLen - 1 - k - i0) dEntry) (suf.getD (histLen - k - i0) dEntry)
          else if k + i0 = histLen ∧ 0 < i0 then
            { name := (hist.getD k zeroPastName).name,
              untilTime := untilOf (suf.getD 0 dEntry) }
          else hist.getD k zeroPastName := by
  intro suf
  induction suf with
  | nil => intro hne; exact absurd rfl hne
  | cons hd tl ih =>
    intro hne i0 hist hi hlen hzero
    have hlc : (hd :: tl).length = tl.length + 1 := List.length_cons hd tl
    have hi0le : i0 ≤ histLen := by omega
    simp only [List.map_cons, histLoop, entryJson, asObj, lookup_changedToAt_entry,
      untilWrite_entry, asStrField_name_entry]
    by_cases hbreak : i0 = histLen
    · -- final iteration: the payload element is the current name
      have htl : tl = [] := by
        have : tl.length = 0 := by omega
        exact List.length_eq_zero.mp this
      subst htl
      rw [if_pos hbreak]
      refine ⟨histWrite histLen i0 hist hd, ?_, by rw [length_histWrite, hlen], ?_⟩
      · rfl
      · intro k hk
        have hknotlt : ¬ (k + i0 < histLen) := by omega
        rw [if_neg hknotlt]
        have hpos0 : 0 < i0 := by omega
        by_cases hk0 : k = 0
        · subst hk0
          rw [if_pos ⟨by omega, hpos0⟩]
          have hw : histLen - i0 = 0 := by omega
          have := histWrite_getD_eq histLen i0 hist hd hpos0 hlen hi0le
            (by rw [hw]; exact hzero 0 hk (by omega))
          rw [hw] at this
          rw [this]
          rfl
        · rw [if_neg (by omega)]
          exact histWrite_getD_ne histLen i0 hist hd k (by omega)
    · -- continuing iteration: record a past name and recurse
      rw [if_neg hbreak]
      have hi0lt : i0 < histLen := by omega
      have htl : tl ≠ [] := by
        intro h
        subst h
        simp only [List.length_cons, List.length_nil] at hi
        omega
      set histA : List PastName := histWrite histLen i0 hist hd with hA
      set histB : List PastName := setNameAt histA (histLen - 1 - i0) hd.name with hB
      have hlenA : histA.length = histLen := by rw [hA, length_histWrite, hlen]
      have hlenB : histB.length = histLen := by rw [hB, length_setNameAt, hlenA]
      have hBne : ∀ k, histLen - 1 - i0 ≠ k →
          histB.getD k zeroPastName = histA.getD k zeroPastName := by
        intro k hk
        rw [hB]
        exact getD_setNameAt_ne _ _ _ _ hk
      have hBeq : histB.getD (histLen - 1 - i0) zeroPastName =
          { name := hd.name,
            untilTime := (histA.getD (histLen - 1 - i0) zeroPastName).untilTime } := by
        rw [hB]
        exact getD_setNameAt_eq _ _ _ (by omega)
      have hzeroB : ∀ k, k < histLen → k + (i0 + 1) ≤ histLen →
          (histB.getD k zeroPastName).untilTime = .zero := by
        intro k hk hki
        have huA : (histA.getD k zeroPastName).untilTime = .zero := by
          rw [hA, histWrite_getD_ne histLen i0 hist hd k (by omega)]
          exact hzero k hk (by omega)
        by_cases hkw : histLen - 1 - i0 = k
        · rw [← hkw] at huA ⊢
          rw [hBeq]
          exact huA
        · rw [hBne k hkw]
          exact huA
      obtain ⟨hist3, hrun, hlen3, hpt⟩ := ih htl (i0 + 1) histB (by omega) hlenB hzeroB
      refine ⟨hist3, ?_, hlen3, ?_⟩
      · rw [hrun, List.getLast_cons htl]
      · intro k hk
        have hp := hpt k hk
        by_cases hcaseA : k + i0 + 1 < histLen
        · rw [if_pos (by omega : k + (i0 + 1) < histLen)] at hp
          rw [if_pos (by omega : k + i0 < histLen)]
          have e1 : histLen - 1 - k - i0 = (histLen - 1 - k - (i0 + 1)) + 1 := by omega
          have e2 : histLen - k - i0 = (histLen - k - (i0 + 1)) + 1 := by omega
          rw [e1, e2, hp]
          rfl
        · by_cases hcaseB : k + i0 + 1 = histLen
          · rw [if_neg (by omega), if_pos ⟨by omega, by omega⟩] at hp
            rw [if_pos (by omega : k + i0 < histLen)]
            have hkidx : k = histLen - 1 - i0 := by omega
            have e1 : histLen - 1 - k - i0 = 0 := by omega
            have e2 : histLen - k - i0 = 1 := by omega
            rw [hp, e1, e2, hkidx, hBeq]
            simp [pastOf, List.getD_cons_zero, List.getD_cons_succ]
          · rw [if_neg (by omega), if_neg (by simp; omega)] at hp
            by_cases hcaseC : k + i0 = histLen ∧ 0 < i0
            · rw [if_neg (by omega), if_pos hcaseC, hp]
              have hkidx : histLen - i0 = k := by omega
              rw [hBne k (by omega), hA]
              have := histWrite_getD_eq histLen i0 hist hd hcaseC.2 hlen hi0le
                (by rw [hkidx]; exact hzero k hk (by omega))
              rw [hkidx] at this
              rw [this]
              rfl
            · have hhigh : histLen < k + i0 := by
                rcases Nat.lt_or_ge (k + i0) histLen with h | h
                · omega
                · rcases Nat.eq_or_lt_of_le h with h2 | h2
                  · exact absurd ⟨h2.symm, by omega⟩ hcaseC
                  · omega
              rw [if_neg (by omega), if_neg hcaseC, hp]
              rw [hBne k (by omega), hA]
              exact histWrite_getD_ne histLen i0 hist hd k (by omega)

theorem length_expectedHist (es : List NameEntry) :
    (expectedHist es).length = es.length - 1 := by
  simp [expectedHist]

theorem getD_replicate_zero (n k : Nat) (hk : k < n) :
    ((List.replicate n zeroPastName).getD k zeroPastName).untilTime = GoTime.zero := by
  rw [List.getD_eq_getElem _ _ (by simpa using hk)]
  simp [zeroPastName]

/-- C1 (amended): for every non-empty well-formed name-history payload, in
the chronological order the endpoint delivers (original name first, current
name last), `buildHistory` returns the name of the LAST payload entry as
the current name, together with a non-nil history listing the past names in
DESCENDING order — most recently superseded first, earliest superseded
last — where each past entry's `Until` is the `changedToAt` stamp of its
payload successor; a single-element payload yields the current name with an
empty, non-nil history. -/
theorem c1_buildHistory_descending (es : List NameEntry) (hne : es ≠ []) :
    buildHistory (es.map entryJson) = .ok ((es.getLast hne).name, some (expectedHist es)) := by
  have hpos : 0 < es.length := List.length_pos.mpr hne
  obtain ⟨hist3, hrun, hlen3, hpt⟩ := histLoop_spec (es.length - 1) es hne 0
    (List.replicate (es.length - 1) zeroPastName) (by omega) (by simp)
    (fun k hk _ => getD_replicate_zero _ _ hk)
  unfold buildHistory
  rw [if_neg (by simp only [List.length_map]; omega)]
  simp only [List.length_map]
  rw [hrun]
  have hfinal : hist3 = expectedHist es := by
    apply List.ext_getElem (by rw [hlen3, length_expectedHist])
    intro i h1 h2
    have hp := hpt i (by omega)
    rw [if_pos (by omega)] at hp
    rw [List.getD_eq_getElem _ _ h1] at hp
    rw [hp]
    have hi2 : i < es.length - 1 := by
      have := length_expectedHist es
      omega
    rw [List.getD_eq_getElem _ _ (by omega : es.length - 1 - 1 - i - 0 < es.length),
      List.getD_eq_getElem _ _ (by omega : es.length - 1 - i - 0 < es.length)]
    unfold expectedHist
    rw [List.getElem_reverse, List.getElem_map, List.getElem_zip]
    have htl : (es.tail).length = es.length - 1 := by simp
    have e0 : ((es.zip es.tail).map
        (fun pq => pastOf pq.1 pq.2)).length - 1 - i = es.length - 2 - i := by
      simp [List.length_zip]
      omega
    simp only [e0]
    have e1 : es.length - 1 - 1 - i - 0 = es.length - 2 - i := by omega
    have e2 : es.length - 1 - i - 0 = (es.length - 2 - i) + 1 := by omega
    simp only [e1, e2]
    congr 1
    rw [List.getElem_tail]
  rw [hfinal]

/-- C1 witnesses: a three-entry payload (original name A, changed to B,
changed to the current C) and a single-entry payload, instantiating the
amended theorem. -/
theorem c1_buildHistory_descending_witness :
    buildHistory [entryJson { name := "A", changedToAt := none },
        entryJson { name := "B", changedToAt := some 1000 },
        entryJson { name := "C", changedToAt := some 2000 }] =
      .ok ("C", some [{ name := "B", untilTime := GoTime.unix 2 0 },
        { name := "A", untilTime := GoTime.unix 1 0 }]) ∧
    buildHistory [entryJson { name := "Solo", changedToAt := none }] =
      .ok ("Solo", some []) := by
  constructor
  · rw [show [entryJson { name := "A", changedToAt := none },
        entryJson { name := "B", changedToAt := some 1000 },
        entryJson { name := "C", changedToAt := some 2000 }] =
        List.map entryJson [{ name := "A", changedToAt := none },
          { name := "B", changedToAt := some 1000 },
          { name := "C", changedToAt := some 2000 }] from rfl,
      c1_buildHistory_descending _ (by decide)]
    decide
  · rw [show [entryJson { name := "Solo", changedToAt := none }] =
        List.map entryJson [{ name := "Solo", changedToAt := none }] from rfl,
      c1_buildHistory_descending _ (by decide)]
    decide

/-- C1 counterexample: on the payload `[A, B(changedToAt 1s), C(changedToAt
2s)]` the builder returns the history `[B until 2s, A until 1s]` — most
recently superseded FIRST — and not the ascending order `[A until 1s,
B until 2s]` (earliest superseded first) that the claim asserts. -/
theorem c1_not_ascending_counterexample :
    buildHistory [entryJson { name := "A", changedToAt := none },
        entryJson { name := "B", changedToAt := some 1000 },
        entryJson { name := "C", changedToAt := some 2000 }] =
      .ok ("C", some [{ name := "B", untilTime := GoTime.unix 2 0 },
        { name := "A", untilTime := GoTime.unix 1 0 }]) ∧
    buildHistory [entryJson { name := "A", changedToAt := none },
        entryJson { name := "B", changedToAt := some 1000 },
        entryJson { name := "C", changedToAt := some 2000 }] ≠
      .ok ("C", some [{ name := "A", untilTime := GoTime.unix 1 0 },
        { name := "B", untilTime := GoTime.unix 2 0 }]) := by
  constructor
  · decide
  · decide


/-- Go type assertion `v.(string)` on a JSON value. -/
def asStr : Json → Except Unit String
  | .str s => .ok s
  | _ => .error ()

/-- The endpoint constants of load.go, as format functions. -/
def loadURL (username : String) : String :=
  "https://api.mojang.com/users/profiles/minecraft/" ++ username

def loadAtTimeURL (username : String) (unixTime : Int) : String :=
  "https://api.mojang.com/users/profiles/minecraft/" ++ username ++ "?at=" ++ toString unixTime

def loadWithNameHistoryURL (id : String) : String :=
  "https://api.mojang.com/user/profiles/" ++ id ++ "/names"

def loadWithPropertiesURL (id : String) : String :=
  "https://sessionserver.mojang.com/session/minecraft/profile/" ++ id

def loadManyURL : String :=
  "https://api.mojang.com/profiles/minecraft"

/-- `LoadManyMaxSize` from load.go. -/
def LoadManyMaxSize : Nat := 100

/-- The tail of `buildProfile` from load.go once the demo check has
passed: assert `id` and `name` as strings, then apply the `legacy`
defaulting (a fresh profile's `NameHistory` is nil, so `legacy == true`
yields the explicit empty, non-nil history `emptyHist`). -/
def buildProfileRest (m : List (String × Json)) : Except Unit (Except GoErr Profile) :=
  match asStrField m "id" with
  | .error e => .error e
  | .ok id =>
    match asStrField m "name" with
    | .error e => .error e
    | .ok name =>
      match List.lookup "legacy" m with
      | some t =>
        match asBool t with
        | .error e => .error e
        | .ok b =>
          .ok (.ok
            { id := id, name := name,
              nameHistory := if b then some [] else none, properties := none })
      | none => .ok (.ok { id := id, name := name, nameHistory := none, properties := none })

/-- `buildProfile` from load.go. The outer `Except Unit` layer is the
panic behaviour of the type assertions; the inner `Except GoErr` layer is
the returned `(p, err)` pair: `demoErr` when the payload is demo-flagged,
otherwise the profile. -/
def buildProfile (m : List (String × Json)) (demoErr : GoErr) :
    Except Unit (Except GoErr Profile) :=
  match List.lookup "demo" m with
  | some t =>
    match asBool t with
    | .error e => .error e
    | .ok b => if b then .ok (.error demoErr) else buildProfileRest m
  | none => buildProfileRest m

/-- The parse phase of `loadByName` (everything under the `recover`
boundary): assert the payload is an object and build the profile. -/
def loadByNameParse (j : Json) : Except Unit (Except GoErr Profile) :=
  match asObj j with
  | .error e => .error e
  | .ok m => buildProfile m .noSuchProfile

/-- `loadByName` from load.go, with the transport modelled as the already
fetched `Except` value: transport errors pass through `transformError`;
a parse panic is recovered into the `url.Error{Op: "Parse", URL: endpoint,
Err: ErrUnknownFormat}` with the profile left nil. -/
def loadByName (fetched : Except GoErr Json) (endpoint : String) : Except GoErr Profile :=
  match fetched with
  | .error e => .error (transformError e)
  | .ok j =>
    match loadByNameParse j with
    | .error _ => .error (.urlError "Parse" endpoint .unknownFormat)
    | .ok r => r

/-- `Load` from load.go. -/
def Load (fetched : Except GoErr Json) (username : String) : Except GoErr Profile :=
  if username = "" then .error .noSuchProfile
  else loadByName fetched (loadURL username)

/-- `LoadAtTime` from load.go (the instant only enters the endpoint). -/
def LoadAtTime (fetched : Except GoErr Json) (username : String) (unixTime : Int) :
    Except GoErr Profile :=
  if username = "" then .error .noSuchProfile
  else loadByName fetched (loadAtTimeURL username unixTime)

/-- The parse phase of `LoadWithNameHistory`: assert the payload is an
array and build the history. -/
def histParse (j : Json) : Except Unit (String × Option (List PastName)) :=
  match asArr j with
  | .error e => .error e
  | .ok arr => buildHistory arr

/-- `LoadWithNameHistory` from load.go. -/
def LoadWithNameHistory (fetched : Except GoErr Json) (id : String) : Except GoErr Profile :=
  if id = "" then .error .noSuchProfile
  else
    match fetched with
    | .error e => .error (transformError e)
    | .ok j =>
      match histParse j with
      | .error _ => .error (.urlError "Parse" (loadWithNameHistoryURL id) .unknownFormat)
      | .ok (name, hist) =>
        .ok { id := id, name := name, nameHistory := hist, properties := none }

/-- `LoadByID` from load.go: defined as `LoadWithNameHistory`. -/
def LoadByID (fetched : Except GoErr Json) (id : String) : Except GoErr Profile :=
  LoadWithNameHistory fetched id

/-- The `SKIN` branch of `populateTextures` from load.go, plus the
`profileId`-based default model when no `SKIN` entry exists. `m` is the
whole decoded textures-property JSON object, `ts` its `textures` field. -/
def skinStep (m ts : List (String × Json)) (props : Properties) : Except Unit Properties :=
  match List.lookup "SKIN" ts with
  | some s =>
    match asObj s with
    | .error e => .error e
    | .ok skin =>
      match asStrField skin "url" with
      | .error e => .error e
      | .ok skinURL =>
        let propsA : Properties := { props with skinURL := skinURL, model := .Steve }
        match List.lookup "metadata" skin with
        | some md =>
          match asObj md with
          | .error e => .error e
          | .ok skinMeta =>
            match List.lookup "model" skinMeta with
            | some mv =>
              match asStr mv with
              | .error e => .error e
              | .ok sv => .ok (if sv = "slim" then { propsA with model := .Alex } else propsA)
            | none => .ok propsA
        | none => .ok propsA
  | none =>
    match asStrField m "profileId" with
    | .error e => .error e
    | .ok pid =>
      match defaultModel pid with
      | .error e => .error e
      | .ok mdl => .ok { props with model := mdl }

/-- The `CAPE` branch of `populateTextures` from load.go. -/
def capeStep (ts : List (String × Json)) (props : Properties) : Except Unit Properties :=
  match List.lookup "CAPE" ts with
  | some c =>
    match asObj c with
    | .error e => .error e
    | .ok cape =>
      match asStrField cape "url" with
      | .error e => .error e
      | .ok capeURL => .ok { props with capeURL := capeURL }
  | none => .ok props

/-- `populateTextures` from load.go. The base64 decoding followed by JSON
decoding of the property value is modelled by the oracle `dec`; its errors
are returned verbatim (inner `Except GoErr`), while type-assertion panics
surface in the outer `Except Unit` layer. -/
def populateTextures (dec : String → Except GoErr (List (String × Json)))
    (enc : String) (props : Properties) : Except Unit (Except GoErr Properties) :=
  match dec enc with
  | .error e => .ok (.error e)
  | .ok m =>
    match asObj (fieldOrNull m "textures") with
    | .error e => .error e
    | .ok ts =>
      match skinStep m ts props with
      | .error e => .error e
      | .ok props1 =>
        match capeStep ts props1 with
        | .error e => .error e
        | .ok props2 => .ok (.ok props2)

/-- The loop of `buildProperties` from load.go: only the property named
`"textures"` has a registered populator; unrecognized names are skipped;
a populator error aborts the whole aggregation. -/
def buildPropsLoop (dec : String → Except GoErr (List (String × Json))) :
    List Json → Properties → Except Unit (Except GoErr Properties)
  | [], ps => .ok (.ok ps)
  | p :: rest, ps =>
    match asObj p with
    | .error e => .error e
    | .ok prop =>
      match asStrField prop "name" with
      | .error e => .error e
      | .ok name =>
        match asStrField prop "value" with
        | .error e => .error e
        | .ok value =>
          if name = "textures" then
            match populateTextures dec value ps with
            | .error e => .error e
            | .ok (.error e) => .ok (.error e)
            | .ok (.ok ps2) => buildPropsLoop dec rest ps2
          else buildPropsLoop dec rest ps

/-- `buildProperties` from load.go, starting from `new(Properties)`. -/
def buildProperties (dec : String → Except GoErr (List (String × Json)))
    (props : List Json) : Except Unit (Except GoErr Properties) :=
  buildPropsLoop dec props {}

/-- The parse phase of `LoadWithProperties` (everything under its
`recover` boundary): build the basic profile, then assert and aggregate
the `properties` array; a `buildProperties` error is wrapped into
`url.Error{Op: "Parse", URL: endpoint, Err: err}`. -/
def propsParse (dec : String → Except GoErr (List (String × Json)))
    (endpoint : String) (j : Json) : Except Unit (Except GoErr Profile) :=
  match asObj j with
  | .error e => .error e
  | .ok m =>
    match buildProfile m .noSuchProfile with
    | .error e => .error e
    | .ok (.error e) => .ok (.error e)
    | .ok (.ok p) =>
      match asArr (fieldOrNull m "properties") with
      | .error e => .error e
      | .ok props =>
        match buildProperties dec props with
        | .error e => .error e
        | .ok (.error e) => .ok (.error (.urlError "Parse" endpoint e))
        | .ok (.ok ps) => .ok (.ok { p with properties := some ps })

/-- `LoadWithProperties` from load.go. -/
def LoadWithProperties (fetched : Except GoErr Json)
    (dec : String → Except GoErr (List (String × Json))) (id : String) :
    Except GoErr Profile :=
  if id = "" then .error .noSuchProfile
  else
    match fetched with
    | .error e => .error (transformError e)
    | .ok j =>
      match propsParse dec (loadWithPropertiesURL id) j with
      | .error _ => .error (.urlError "Parse" (loadWithPropertiesURL id) .unknownFormat)
      | .ok r => r

/-- The per-element loop of `LoadMany` from load.go: build each profile,
silently skipping entries for which `buildProfile` reports
`ErrNoSuchProfile` (demo accounts). -/
def loadManyLoop : List Json → Except Unit (Except GoErr (List Profile))
  | [] => .ok (.ok [])
  | p :: rest =>
    match asObj p with
    | .error e => .error e
    | .ok m =>
      match buildProfile m .noSuchProfile with
      | .error e => .error e
      | .ok (.error e) =>
        if e = .noSuchProfile then loadManyLoop rest else .ok (.error e)
      | .ok (.ok pr) =>
        match loadManyLoop rest with
        | .error e => .error e
        | .ok (.error e) => .ok (.error e)
        | .ok (.ok ps) => .ok (.ok (pr :: ps))

/-- The parse phase of `LoadMany`: assert the payload is an array and run
the per-element loop. -/
def loadManyParse (j : Json) : Except Unit (Except GoErr (List Profile)) :=
  match asArr j with
  | .error e => .error e
  | .ok arr => loadManyLoop arr

/-- `LoadMany` from load.go. `posted` is the transport oracle for the
single batched POST; the second component of the result records the
request body actually sent (`none` when no request is made). The returned
profile slice is `none` exactly when Go returns a nil slice. -/
def LoadMany (posted : List String → Except GoErr Json) (usernames : List String) :
    Except GoErr (Option (List Profile)) × Option (List String) :=
  if usernames.length > LoadManyMaxSize then
    (.error (.maxSizeExceeded usernames.length), none)
  else
    let users := usernames.filter (fun u => u ≠ "")
    if users.length = 0 then (.ok none, none)
    else
      match posted users with
      | .error e => (.error (transformError e), some users)
      | .ok j =>
        match loadManyParse j with
        | .error _ => (.error (.urlError "Parse" loadManyURL .unknownFormat), some users)
        | .ok (.error e) => (.error e, some users)
        | .ok (.ok ps) => (.ok (some ps), some users)


/-- `Profile.LoadNameHistory` from profile.go: reload when the history is
nil or `force` is set; on success replace `Name` and `NameHistory`; on
failure leave the profile untouched and return the prior value with the
error, remapping `ErrNoSuchProfile` to `ErrUnsetPlayerID` when the ID is
empty. Returns the updated profile, the returned history and the error. -/
def Profile.loadNameHistory (fetched : Except GoErr Json) (p : Profile) (force : Bool) :
    Profile × Option (List PastName) × Option GoErr :=
  if p.nameHistory = none ∨ force = true then
    match LoadWithNameHistory fetched p.id with
    | .error e =>
      (p, p.nameHistory, some (if e = .noSuchProfile ∧ p.id = "" then .unsetPlayerID else e))
    | .ok loaded =>
      ({ p with name := loaded.name, nameHistory := loaded.nameHistory },
        loaded.nameHistory, none)
  else (p, p.nameHistory, none)

/-- `Profile.LoadProperties` from profile.go, symmetric to
`Profile.loadNameHistory` for the `Properties` field. -/
def Profile.loadProperties (fetched : Except GoErr Json)
    (dec : String → Except GoErr (List (String × Json))) (p : Profile) (force : Bool) :
    Profile × Option Properties × Option GoErr :=
  if p.properties = none ∨ force = true then
    match LoadWithProperties fetched dec p.id with
    | .error e =>
      (p, p.properties, some (if e = .noSuchProfile ∧ p.id = "" then .unsetPlayerID else e))
    | .ok loaded =>
      ({ p with name := loaded.name, properties := loaded.properties },
        loaded.properties, none)
  else (p, p.properties, none)

/-- `CacheEntry` from the caching revision of the package. -/
structure CacheEntry where
  id : String
  name : String
  nameHistory : Option (List PastName) := none
  properties : Option Properties := none
deriving DecidableEq, Repr

/-- The `Cache` interface from the caching revision, as a record of the
caller-supplied query functions. -/
structure Cache where
  getName : String → Option CacheEntry
  getNameAtTime : String → GoTime → Option CacheEntry
  getID : String → Option CacheEntry

/-- The observable effects of one `Store` operation: whether the network
loader ran, the entries passed to `Cache`, and the `(name, time, id)`
triples passed to `CacheNameAtTime`. -/
structure StoreEffects where
  networkCalled : Bool
  cached : List CacheEntry
  cachedNamesAtTime : List (String × GoTime × String)
deriving DecidableEq, Repr

/-- `cToP` from the caching revision (the profile's cache pointer is not
part of this model). -/
def cToP (e : CacheEntry) : Profile :=
  { id := e.id, name := e.name, nameHistory := e.nameHistory, properties := e.properties }

/-- `pToC` from the caching revision. -/
def pToC (p : Profile) : CacheEntry :=
  { id := p.id, name := p.name, nameHistory := p.nameHistory, properties := p.properties }

/-- Effects of an operation that only hit the cache. -/
def noEffects : StoreEffects := { networkCalled := false, cached := [], cachedNamesAtTime := [] }

/-- Effects of an operation whose network load failed: the loader ran but
nothing was written to the cache. -/
def netOnly : StoreEffects := { networkCalled := true, cached := [], cachedNamesAtTime := [] }

/-- `Store.Load`: a store is its optional cache; `net` is the result the
underlying package-level loader would produce. Any `GetName` hit is
sufficient. -/
def Store.load (cache : Option Cache) (net : Except GoErr Profile) (username : String) :
    Except GoErr Profile × StoreEffects :=
  match cache with
  | none => (net, netOnly)
  | some c =>
    match c.getName username with
    | some e => (.ok (cToP e), noEffects)
    | none =>
      match net with
      | .error err => (.error err, netOnly)
      | .ok p =>
        (.ok p, { networkCalled := true, cached := [pToC p], cachedNamesAtTime := [] })

/-- `Store.LoadAtTime`: on a miss and successful load, both the snapshot
and the permanent `(name, time) → id` mapping are written. -/
def Store.loadAtTime (cache : Option Cache) (net : Except GoErr Profile)
    (username : String) (tm : GoTime) : Except GoErr Profile × StoreEffects :=
  match cache with
  | none => (net, netOnly)
  | some c =>
    match c.getNameAtTime username tm with
    | some e => (.ok (cToP e), noEffects)
    | none =>
      match net with
      | .error err => (.error err, netOnly)
      | .ok p =>
        (.ok p, { networkCalled := true, cached := [pToC p],
                  cachedNamesAtTime := [(username, tm, p.id)] })

/-- `Store.LoadByID`: any `GetID` hit is sufficient. -/
def Store.loadByID (cache : Option Cache) (net : Except GoErr Profile) (id : String) :
    Except GoErr Profile × StoreEffects :=
  match cache with
  | none => (net, netOnly)
  | some c =>
    match c.getID id with
    | some e => (.ok (cToP e), noEffects)
    | none =>
      match net with
      | .error err => (.error err, netOnly)
      | .ok p =>
        (.ok p, { networkCalled := true, cached := [pToC p], cachedNamesAtTime := [] })

/-- `Store.LoadWithNameHistory`: a `GetID` hit is sufficient only when it
carries a non-nil name history. -/
def Store.loadWithNameHistory (cache : Option Cache) (net : Except GoErr Profile)
    (id : String) : Except GoErr Profile × StoreEffects :=
  match cache with
  | none => (net, netOnly)
  | some c =>
    match c.getID id with
    | some e =>
      if e.nameHistory ≠ none then (.ok (cToP e), noEffects)
      else
        match net with
        | .error err => (.error err, netOnly)
        | .ok p =>
          (.ok p, { networkCalled := true, cached := [pToC p], cachedNamesAtTime := [] })
    | none =>
      match net with
      | .error err => (.error err, netOnly)
      | .ok p =>
        (.ok p, { networkCalled := true, cached := [pToC p], cachedNamesAtTime := [] })

/-- `Store.LoadWithProperties`: a `GetID` hit is sufficient only when it
carries non-nil properties. -/
def Store.loadWithProperties (cache : Option Cache) (net : Except GoErr Profile)
    (id : String) : Except GoErr Profile × StoreEffects :=
  match cache with
  | none => (net, netOnly)
  | some c =>
    match c.getID id with
    | some e =>
      if e.properties ≠ none then (.ok (cToP e), noEffects)
      else
        match net with
        | .error err => (.error err, netOnly)
        | .ok p =>
          (.ok p, { networkCalled := true, cached := [pToC p], cachedNamesAtTime := [] })
    | none =>
      match net with
      | .error err => (.error err, netOnly)
      | .ok p =>
        (.ok p, { networkCalled := true, cached := [pToC p], cachedNamesAtTime := [] })


/-- The tail of `fillProfile` (caching revision) once the demo check has
passed: assert `id` and `name`, apply the `legacy` defaulting only while
`p.NameHistory` is still the nil sentinel, then overwrite `ID` and
`Name`. -/
def fillProfileRest (p : Profile) (m : List (String × Json)) :
    Except Unit (Bool × Profile) :=
  match asStrField m "id" with
  | .error e => .error e
  | .ok id =>
    match asStrField m "name" with
    | .error e => .error e
    | .ok name =>
      match (if p.nameHistory = none then
               match List.lookup "legacy" m with
               | some t =>
                 match asBool t with
                 | .error e => .error e
                 | .ok b => .ok (if b then some ([] : List PastName) else p.nameHistory)
               | none => .ok p.nameHistory
             else .ok p.nameHistory : Except Unit (Option (List PastName))) with
      | .error e => .error e
      | .ok nh =>
        .ok (true, { id := id, name := name, nameHistory := nh, properties := p.properties })

/-- `fillProfile` from the caching revision of the package: returns
`false` leaving `p` unmodified for a demo payload, otherwise `true` and
the updated profile. -/
def fillProfile (p : Profile) (m : List (String × Json)) : Except Unit (Bool × Profile) :=
  match List.lookup "demo" m with
  | some t =>
    match asBool t with
    | .error e => .error e
    | .ok b => if b then .ok (false, p) else fillProfileRest p m
  | none => fillProfileRest p m

/-- A well-formed basic-profile payload: required `id` and `name`, and the
optional boolean `demo` and `legacy` fields. -/
def profileFields (id name : String) (demo legacy : Option Bool) : List (String × Json) :=
  [("id", .str id), ("name", .str name)]
    ++ (match demo with | some b => [("demo", .bool b)] | none => [])
    ++ (match legacy with | some b => [("legacy", .bool b)] | none => [])

/-- The profile `buildProfile` constructs from a non-demo well-formed
payload. -/
def builtProfile (id name : String) (legacy : Option Bool) : Profile :=
  { id := id, name := name,
    nameHistory := if legacy = some true then some [] else none, properties := none }

/-- A specification of one element of a bulk-load payload. -/
structure PayloadSpec where
  id : String
  name : String
  demo : Option Bool := none
  legacy : Option Bool := none
deriving DecidableEq, Repr

/-- The JSON object a `PayloadSpec` stands for. -/
def specJson (s : PayloadSpec) : Json :=
  .obj (profileFields s.id s.name s.demo s.legacy)

/-- The profile a bulk load returns for one payload element: none when the
element is demo-flagged (silently skipped). -/
def specProfile (s : PayloadSpec) : Option Profile :=
  if s.demo = some true then none else some (builtProfile s.id s.name s.legacy)

theorem buildProfile_profileFields (id name : String) (demo legacy : Option Bool)
    (demoErr : GoErr) :
    buildProfile (profileFields id name demo legacy) demoErr =
      .ok (if demo = some true then .error demoErr
           else .ok (builtProfile id name legacy)) := by
  rcases demo with _ | (_|_) <;> rcases legacy with _ | (_|_) <;> rfl


theorem loadManyLoop_specs (specs : List PayloadSpec) :
    loadManyLoop (specs.map specJson) = .ok (.ok (specs.filterMap specProfile)) := by
  induction specs with
  | nil => rfl
  | cons s rest ih =>
    simp only [List.map_cons, loadManyLoop, specJson, asObj, buildProfile_profileFields]
    by_cases hdemo : s.demo = some true
    · rw [if_pos hdemo]
      simp only [if_pos rfl, ih]
      simp [List.filterMap_cons, specProfile, hdemo]
    · rw [if_neg hdemo]
      simp only [ih]
      simp [List.filterMap_cons, specProfile, hdemo]

/-- C7: no operation returns a demo-flagged profile. `buildProfile` fails
with the supplied no-such-profile error on any payload whose `demo` field
is present and true, and `LoadMany` silently skips demo-flagged elements
of a well-formed batch while returning the remaining profiles without
error. -/
theorem c7_demo_never_returned :
    (∀ (m : List (String × Json)) (demoErr : GoErr) (t : Json),
      List.lookup "demo" m = some t → asBool t = .ok true →
      buildProfile m demoErr = .ok (.error demoErr)) ∧
    (∀ (posted : List String → Except GoErr Json) (usernames : List String)
        (specs : List PayloadSpec),
      usernames.length ≤ LoadManyMaxSize →
      usernames.filter (fun u => u ≠ "") ≠ [] →
      posted (usernames.filter (fun u => u ≠ "")) = .ok (.arr (specs.map specJson)) →
      (LoadMany posted usernames).1 = .ok (some (specs.filterMap specProfile))) := by
  constructor
  · intro m demoErr t hl hb
    simp only [buildProfile, hl, hb]
    rfl
  · intro posted usernames specs hlen hfil hpost
    unfold LoadMany
    rw [if_neg (by omega)]
    simp only []
    rw [if_neg (by
      intro h0
      exact hfil (List.length_eq_zero.mp h0))]
    rw [hpost]
    simp only [loadManyParse, asArr, loadManyLoop_specs]

/-- C7 witness: a batch containing a demo-flagged element between two
regular accounts yields exactly the two regular profiles, no error. -/
theorem c7_demo_never_returned_witness :
    buildProfile [("id", Json.str "i"), ("name", Json.str "n"), ("demo", Json.bool true)]
      GoErr.noSuchProfile = .ok (.error .noSuchProfile) ∧
    (LoadMany
      (fun _ => .ok (.arr [specJson { id := "1", name := "A" },
        specJson { id := "2", name := "B", demo := some true },
        specJson { id := "3", name := "C" }]))
      ["A", "B", "C"]).1 =
      .ok (some [{ id := "1", name := "A", nameHistory := none, properties := none },
        { id := "3", name := "C", nameHistory := none, properties := none }]) := by
  constructor
  · exact c7_demo_never_returned.1 _ _ _ rfl rfl
  · have h := c7_demo_never_returned.2
      (fun _ => .ok (.arr [specJson { id := "1", name := "A" },
        specJson { id := "2", name := "B", demo := some true },
        specJson { id := "3", name := "C" }]))
      ["A", "B", "C"]
      [{ id := "1", name := "A" }, { id := "2", name := "B", demo := some true },
        { id := "3", name := "C" }]
      (by decide) (by decide) rfl
    rw [h]
    rfl


theorem transformError_eq_maxSize {e : GoErr} {k : Nat}
    (h : transformError e = .maxSizeExceeded k) : e = .maxSizeExceeded k := by
  simp only [transformError] at h
  rcases hu : unwrapFailedRequestError e with _ | ⟨st, code, msg⟩ <;> simp only [hu] at h
  · exact h
  · split_ifs at h <;> first | exact h | exact GoErr.noConfusion h

theorem buildProfileRest_no_inner_error (m : List (String × Json)) (e : GoErr) :
    buildProfileRest m ≠ .ok (.error e) := by
  unfold buildProfileRest
  cases h1 : asStrField m "id" with
  | error u => simp
  | ok id =>
    cases h2 : asStrField m "name" with
    | error u => simp
    | ok name =>
      cases h3 : List.lookup "legacy" m with
      | none => simp
      | some t =>
        cases h4 : asBool t with
        | error u => simp [h4]
        | ok b => simp [h4]

theorem buildProfile_inner_error (m : List (String × Json)) (d e : GoErr)
    (h : buildProfile m d = .ok (.error e)) : e = d := by
  unfold buildProfile at h
  cases h1 : List.lookup "demo" m with
  | none =>
    simp only [h1] at h
    exact absurd h (buildProfileRest_no_inner_error m e)
  | some t =>
    simp only [h1] at h
    cases h2 : asBool t with
    | error u =>
      simp only [h2] at h
      exact Except.noConfusion h
    | ok b =>
      simp only [h2] at h
      cases b with
      | false =>
        simp only [Bool.false_eq_true, if_false] at h
        exact absurd h (buildProfileRest_no_inner_error m e)
      | true =>
        simp only [if_true] at h
        exact (Except.error.inj (Except.ok.inj h)).symm

theorem loadManyLoop_no_inner_error (arr : List Json) :
    ∀ e : GoErr, loadManyLoop arr ≠ .ok (.error e) := by
  induction arr with
  | nil => intro e; simp [loadManyLoop]
  | cons p rest ih =>
    intro e
    unfold loadManyLoop
    cases h1 : asObj p with
    | error u => simp [h1]
    | ok m =>
      simp only [h1]
      cases h2 : buildProfile m .noSuchProfile with
      | error u => simp [h2]
      | ok r =>
        cases r with
        | error e2 =>
          have he2 : e2 = .noSuchProfile := buildProfile_inner_error m _ _ h2
          subst he2
          simp only [if_pos rfl]
          exact ih e
        | ok pr =>
          cases h3 : loadManyLoop rest with
          | error u => simp [h3]
          | ok r2 =>
            cases r2 with
            | error e2 => exact absurd h3 (ih e2)
            | ok ps => simp [h3]

theorem loadManyParse_no_inner_error (j : Json) (e : GoErr) :
    loadManyParse j ≠ .ok (.error e) := by
  unfold loadManyParse
  cases h : asArr j with
  | error u => simp
  | ok arr => exact loadManyLoop_no_inner_error arr e

/-- C6: `LoadMany` returns `ErrMaxSizeExceeded` carrying the requested
count and makes no request when given more than 100 usernames; with
exactly 100 it never produces a size error (provided the transport oracle
itself does not); empty usernames are filtered out of the request body
before the request; and when filtering leaves nothing it returns the nil
(hence empty) result and no error, without any request. -/
theorem c6_loadMany_bounds :
    ∀ (posted : List String → Except GoErr Json) (usernames : List String),
      (usernames.length > LoadManyMaxSize →
        LoadMany posted usernames = (.error (.maxSizeExceeded usernames.length), none)) ∧
      (usernames.length ≤ LoadManyMaxSize →
        usernames.filter (fun u => u ≠ "") = [] →
        LoadMany posted usernames = (.ok none, none)) ∧
      (usernames.length ≤ LoadManyMaxSize →
        usernames.filter (fun u => u ≠ "") ≠ [] →
        (LoadMany posted usernames).2 = some (usernames.filter (fun u => u ≠ ""))) ∧
      (usernames.length = LoadManyMaxSize →
        (∀ body k, posted body ≠ .error (.maxSizeExceeded k)) →
        ∀ k, (LoadMany posted usernames).1 ≠ .error (.maxSizeExceeded k)) := by
  intro posted usernames
  refine ⟨?_, ?_, ?_, ?_⟩
  · intro hgt
    unfold LoadMany
    rw [if_pos hgt]
  · intro hle hfil
    unfold LoadMany
    rw [if_neg (by omega)]
    simp only [hfil]
    rfl
  · intro hle hfil
    unfold LoadMany
    rw [if_neg (by omega)]
    simp only []
    rw [if_neg (fun h0 => hfil (List.length_eq_zero.mp h0))]
    rcases hpost : posted (usernames.filter (fun u => u ≠ "")) with err | j
    · simp [hpost]
    · rcases hparse : loadManyParse j with u | (e2 | ps) <;> simp [hpost, hparse]
  · intro hlen hnet k
    unfold LoadMany
    rw [if_neg (by omega)]
    simp only []
    by_cases hfil : (usernames.filter (fun u => u ≠ "")).length = 0
    · rw [if_pos hfil]
      exact fun h => Except.noConfusion h
    · rw [if_neg hfil]
      rcases hpost : posted (usernames.filter (fun u => u ≠ "")) with err | j
      · intro h
        have h2 : transformError err = .maxSizeExceeded k := by simpa using h
        have h3 := transformError_eq_maxSize h2
        rw [h3] at hpost
        exact hnet _ k hpost
      · rcases hparse : loadManyParse j with u | (e2 | ps)
        · intro h
          simp [hparse] at h
        · exact absurd hparse (loadManyParse_no_inner_error j e2)
        · intro h
          simp [hparse] at h

/-- C6 witness: 101 requests fail with the size error and no request; two
empty usernames short-circuit to the nil result; empty names are dropped
from the request body; exactly 100 usernames produce no size error. -/
theorem c6_loadMany_bounds_witness :
    LoadMany (fun _ => .ok (.arr [])) (List.replicate 101 "x") =
      (.error (.maxSizeExceeded 101), none) ∧
    LoadMany (fun _ => .ok (.arr [])) ["", ""] = (.ok none, none) ∧
    (LoadMany (fun _ => .ok (.arr [])) ["a", "", "b"]).2 = some ["a", "b"] ∧
    ∀ k, (LoadMany (fun _ => .ok (.arr [])) (List.replicate 100 "x")).1 ≠
      .error (.maxSizeExceeded k) := by
  refine ⟨?_, ?_, ?_, ?_⟩
  · have h := (c6_loadMany_bounds (fun _ => .ok (.arr [])) (List.replicate 101 "x")).1
      (by simp [LoadManyMaxSize])
    simpa using h
  · exact (c6_loadMany_bounds (fun _ => .ok (.arr [])) ["", ""]).2.1
      (by simp [LoadManyMaxSize]) (by decide)
  · have h := (c6_loadMany_bounds (fun _ => .ok (.arr [])) ["a", "", "b"]).2.2.1
      (by simp [LoadManyMaxSize]) (by decide)
    rw [h]
    rfl
  · exact (c6_loadMany_bounds (fun _ => .ok (.arr [])) (List.replicate 100 "x")).2.2.2
      (by simp [LoadManyMaxSize])
      (fun body k h => Except.noConfusion h)

theorem unwrapFailedRequestError_some_shape (e : GoErr) (st : Nat) (code msg : String)
    (h : unwrapFailedRequestError e = some (st, code, msg)) :
    ∃ op u, e = .urlError op u (.failedRequest st code msg) := by
  cases e with
  | urlError op u inner =>
    cases inner <;> simp only [unwrapFailedRequestError, Option.some.injEq,
      Prod.mk.injEq, reduceCtorEq] at h
    case failedRequest st2 c2 m2 =>
      obtain ⟨h1, h2, h3⟩ := h
      exact ⟨op, u, by rw [h1, h2, h3]⟩
  | noSuchProfile => simp [unwrapFailedRequestError] at h
  | unsetPlayerID => simp [unwrapFailedRequestError] at h
  | tooManyRequests => simp [unwrapFailedRequestError] at h
  | maxSizeExceeded k => simp [unwrapFailedRequestError] at h
  | unknownFormat => simp [unwrapFailedRequestError] at h
  | failedRequest st2 c2 m2 => simp [unwrapFailedRequestError] at h
  | other t => simp [unwrapFailedRequestError] at h

/-- C8 (amended): `transformError` maps a wrapped failed request with
status 204 to `ErrNoSuchProfile` — the 204 check takes precedence, even
when the error code is also `"TooManyRequestsException"` — maps a wrapped
failed request with that code and a status other than 204 to
`ErrTooManyRequests`, and leaves every other error (including wrapped
failed requests matching neither rule, and transport or cancellation
errors that are not wrapped failed requests at all) unchanged. -/
theorem c8_transformError_amended :
    ∀ (e : GoErr),
      (∀ op u code msg, e = .urlError op u (.failedRequest 204 code msg) →
        transformError e = .noSuchProfile) ∧
      (∀ op u st msg, e = .urlError op u (.failedRequest st "TooManyRequestsException" msg) →
        st ≠ 204 → transformError e = .tooManyRequests) ∧
      (∀ op u st code msg, e = .urlError op u (.failedRequest st code msg) →
        st ≠ 204 → code ≠ "TooManyRequestsException" → transformError e = e) ∧
      ((∀ op u st code msg, e ≠ .urlError op u (.failedRequest st code msg)) →
        transformError e = e) := by
  intro e
  refine ⟨?_, ?_, ?_, ?_⟩
  · intro op u code msg he
    subst he
    simp [transformError, unwrapFailedRequestError]
  · intro op u st msg he hst
    subst he
    simp [transformError, unwrapFailedRequestError, hst]
  · intro op u st code msg he hst hcode
    subst he
    simp [transformError, unwrapFailedRequestError, hst, hcode]
  · intro hshape
    unfold transformError
    cases hu : unwrapFailedRequestError e with
    | none => rfl
    | some triple =>
      obtain ⟨st, code, msg⟩ := triple
      obtain ⟨op, u, he⟩ := unwrapFailedRequestError_some_shape e st code msg hu
      exact absurd he (hshape op u st code msg)

/-- C8 witness: the amended theorem applied at a 204 failure, a
rate-limited 429 failure, an unrelated failed request and a bare
cancellation-style transport error. -/
theorem c8_transformError_amended_witness :
    transformError (.urlError "Get" "u" (.failedRequest 204 "" "")) = .noSuchProfile ∧
    transformError (.urlError "Get" "u"
      (.failedRequest 429 "TooManyRequestsException" "limit")) = .tooManyRequests ∧
    transformError (.urlError "Get" "u" (.failedRequest 500 "Internal" "boom")) =
      .urlError "Get" "u" (.failedRequest 500 "Internal" "boom") ∧
    transformError (.other "context canceled") = .other "context canceled" := by
  refine ⟨?_, ?_, ?_, ?_⟩
  · exact (c8_transformError_amended _).1 "Get" "u" "" "" rfl
  · exact (c8_transformError_amended _).2.1 "Get" "u" 429 "limit" rfl (by decide)
  · exact (c8_transformError_amended _).2.2.1 "Get" "u" 500 "Internal" "boom" rfl
      (by decide) (by decide)
  · exact (c8_transformError_amended _).2.2.2
      (fun op u st code msg h => GoErr.noConfusion h)

/-- C8 counterexample to the claim as stated: a failed request carrying
BOTH status 204 and the error code `"TooManyRequestsException"` is mapped
to `ErrNoSuchProfile`, not to `ErrTooManyRequests` as the claim's second
clause requires. -/
theorem c8_overlap_counterexample :
    transformError (.urlError "Post" "u"
      (.failedRequest 204 "TooManyRequestsException" "")) = .noSuchProfile ∧
    transformError (.urlError "Post" "u"
      (.failedRequest 204 "TooManyRequestsException" "")) ≠ .tooManyRequests := by
  exact ⟨rfl, by decide⟩

/-- C5: every load operation converts a parse-phase panic (any structural
violation of the payload: wrong JSON type, missing required field) into a
nil profile paired with the `url.Error{Op: "Parse", URL: endpoint,
Err: ErrUnknownFormat}` error; no type-assertion panic escapes to the
caller. -/
theorem c5_parse_panic_boundary :
    ∀ (endpoint id : String) (j : Json) (usernames : List String)
      (dec : String → Except GoErr (List (String × Json))),
      (loadByNameParse j = .error () →
        loadByName (.ok j) endpoint = .error (.urlError "Parse" endpoint .unknownFormat)) ∧
      (id ≠ "" → histParse j = .error () →
        LoadWithNameHistory (.ok j) id =
          .error (.urlError "Parse" (loadWithNameHistoryURL id) .unknownFormat)) ∧
      (id ≠ "" → propsParse dec (loadWithPropertiesURL id) j = .error () →
        LoadWithProperties (.ok j) dec id =
          .error (.urlError "Parse" (loadWithPropertiesURL id) .unknownFormat)) ∧
      (usernames.length ≤ LoadManyMaxSize →
        ∀ posted : List String → Except GoErr Json,
        posted (usernames.filter (fun u => u ≠ "")) = .ok j →
        usernames.filter (fun u => u ≠ "") ≠ [] →
        loadManyParse j = .error () →
        (LoadMany posted usernames).1 = .error (.urlError "Parse" loadManyURL .unknownFormat)) := by
  intro endpoint id j usernames dec
  refine ⟨?_, ?_, ?_, ?_⟩
  · intro hp
    unfold loadByName
    simp only [hp]
  · intro hid hp
    unfold LoadWithNameHistory
    rw [if_neg hid]
    simp only [hp]
  · intro hid hp
    unfold LoadWithProperties
    rw [if_neg hid]
    simp only [hp]
  · intro hlen posted hpost hfil hp
    unfold LoadMany
    rw [if_neg (by omega)]
    simp only []
    rw [if_neg (fun h0 => hfil (List.length_eq_zero.mp h0))]
    rw [hpost]
    simp only [hp]

/-- C5 witness: concrete malformed payloads — an array where an object is
expected, an object where an array is expected — all surface as the
Parse-classified unknown-format error. -/
theorem c5_parse_panic_boundary_witness :
    loadByName (.ok (.arr [])) (loadURL "user") =
      .error (.urlError "Parse" (loadURL "user") .unknownFormat) ∧
    LoadWithNameHistory (.ok (.obj [])) "abc" =
      .error (.urlError "Parse" (loadWithNameHistoryURL "abc") .unknownFormat) ∧
    LoadWithProperties (.ok (.arr [])) (fun _ => .error (.other "bad base64")) "abc" =
      .error (.urlError "Parse" (loadWithPropertiesURL "abc") .unknownFormat) ∧
    (LoadMany (fun _ => .ok (.obj [])) ["user"]).1 =
      .error (.urlError "Parse" loadManyURL .unknownFormat) := by
  refine ⟨?_, ?_, ?_, ?_⟩
  · exact (c5_parse_panic_boundary (loadURL "user") "" (.arr []) []
      (fun _ => .error (.other ""))).1 rfl
  · exact (c5_parse_panic_boundary "" "abc" (.obj []) []
      (fun _ => .error (.other ""))).2.1 (by decide) rfl
  · exact (c5_parse_panic_boundary "" "abc" (.arr [])
      [] (fun _ => .error (.other "bad base64"))).2.2.1 (by decide) rfl
  · exact (c5_parse_panic_boundary "" "" (.obj []) ["user"]
      (fun _ => .error (.other ""))).2.2.2 (by decide) (fun _ => .ok (.obj [])) rfl
      (by decide) rfl

/-- C10 (amended): `LoadByID` returns, for every transport outcome and
id, exactly the same result as `LoadWithNameHistory`; a profile
successfully loaded by ID has a non-nil `NameHistory` whenever the service
payload array is non-empty, but an empty payload array yields a successful
profile whose `NameHistory` is nil. -/
theorem c10_loadByID_is_loadWithNameHistory :
    (∀ (fetched : Except GoErr Json) (id : String),
      LoadByID fetched id = LoadWithNameHistory fetched id) ∧
    (∀ (id : String) (arr : List Json) (p : Profile),
      LoadWithNameHistory (.ok (.arr arr)) id = .ok p →
      (arr = [] → p.nameHistory = none) ∧
      (arr ≠ [] → ∃ l, p.nameHistory = some l)) := by
  constructor
  · intro fetched id
    rfl
  · intro id arr p h
    unfold LoadWithNameHistory at h
    by_cases hid : id = ""
    · rw [if_pos hid] at h
      exact Except.noConfusion h
    · rw [if_neg hid] at h
      simp only [histParse, asArr] at h
      unfold buildHistory at h
      by_cases hlen : arr.length = 0
      · rw [if_pos hlen] at h
        simp only [] at h
        have hp : p = { id := id, name := "", nameHistory := none, properties := none } :=
          (Except.ok.inj h).symm
        constructor
        · intro _
          rw [hp]
        · intro hne
          exact absurd (List.length_eq_zero.mp hlen) hne
      · rw [if_neg hlen] at h
        constructor
        · intro h0
          exact absurd (h0 ▸ rfl) hlen
        · intro _
          cases hrun : histLoop (arr.length - 1) arr 0
              (List.replicate (arr.length - 1) zeroPastName) with
          | error u =>
            rw [hrun] at h
            exact Except.noConfusion h
          | ok r =>
            obtain ⟨nm, hist⟩ := r
            rw [hrun] at h
            have h2 : (Except.ok (Profile.mk id nm (some hist) none) :
                Except GoErr Profile) = .ok p := h
            exact ⟨hist, by rw [← Except.ok.inj h2]⟩

/-- C10 witnesses for the amended theorem: the two loaders agree on a
concrete input, and a two-entry payload produces a loaded (non-nil)
history. -/
theorem c10_loadByID_is_loadWithNameHistory_witness :
    LoadByID (.ok (.arr [])) "abc" = LoadWithNameHistory (.ok (.arr [])) "abc" ∧
    ∃ l, ({ id := "abc", name := "B",
            nameHistory := some [{ name := "A", untilTime := GoTime.unix 1 0 }],
            properties := none } : Profile).nameHistory = some l := by
  constructor
  · exact c10_loadByID_is_loadWithNameHistory.1 (.ok (.arr [])) "abc"
  · exact (c10_loadByID_is_loadWithNameHistory.2 "abc"
      [entryJson { name := "A", changedToAt := none },
        entryJson { name := "B", changedToAt := some 1000 }]
      { id := "abc", name := "B",
        nameHistory := some [{ name := "A", untilTime := GoTime.unix 1 0 }],
        properties := none }
      (by decide)).2 (by simp)

/-- C10 counterexample to the claim's second half as stated: an empty
payload array is a SUCCESSFUL load by ID whose profile has `NameHistory`
nil — not the non-nil, fully populated history the claim asserts for
every successful load. -/
theorem c10_empty_payload_counterexample :
    LoadByID (.ok (.arr [])) "abc" =
      .ok { id := "abc", name := "", nameHistory := none, properties := none } ∧
    ({ id := "abc", name := "", nameHistory := none, properties := none } : Profile).nameHistory
      = none := by
  exact ⟨by decide, rfl⟩

/-- C4: whenever `LoadNameHistory` (resp. `LoadProperties`) triggers a
reload that fails, the profile is left completely unchanged (`Name`,
`NameHistory` and `Properties` all keep their prior values) and the method
returns the prior field value (nil if never loaded) together with the
error; and when the profile's ID is empty, the underlying load's
no-such-profile result is remapped to the distinguishable
`ErrUnsetPlayerID`. -/
theorem c4_failed_reload_preserves_state :
    ∀ (fetched : Except GoErr Json) (dec : String → Except GoErr (List (String × Json)))
      (p : Profile) (force : Bool),
      (∀ p2 hist e, Profile.loadNameHistory fetched p force = (p2, hist, some e) →
        p2 = p ∧ hist = p.nameHistory) ∧
      (∀ p2 ps e, Profile.loadProperties fetched dec p force = (p2, ps, some e) →
        p2 = p ∧ ps = p.properties) ∧
      (p.id = "" → (p.nameHistory = none ∨ force = true) →
        (Profile.loadNameHistory fetched p force).2.2 = some .unsetPlayerID) ∧
      (p.id = "" → (p.properties = none ∨ force = true) →
        (Profile.loadProperties fetched dec p force).2.2 = some .unsetPlayerID) := by
  intro fetched dec p force
  refine ⟨?_, ?_, ?_, ?_⟩
  · intro p2 hist e h
    unfold Profile.loadNameHistory at h
    by_cases hc : p.nameHistory = none ∨ force = true
    · rw [if_pos hc] at h
      cases hload : LoadWithNameHistory fetched p.id with
      | error err =>
        rw [hload] at h
        exact ⟨(Prod.mk.inj h).1.symm, (Prod.mk.inj (Prod.mk.inj h).2).1.symm⟩
      | ok loaded =>
        rw [hload] at h
        exact Option.noConfusion (Prod.mk.inj (Prod.mk.inj h).2).2
    · rw [if_neg hc] at h
      exact Option.noConfusion (Prod.mk.inj (Prod.mk.inj h).2).2
  · intro p2 ps e h
    unfold Profile.loadProperties at h
    by_cases hc : p.properties = none ∨ force = true
    · rw [if_pos hc] at h
      cases hload : LoadWithProperties fetched dec p.id with
      | error err =>
        rw [hload] at h
        exact ⟨(Prod.mk.inj h).1.symm, (Prod.mk.inj (Prod.mk.inj h).2).1.symm⟩
      | ok loaded =>
        rw [hload] at h
        exact Option.noConfusion (Prod.mk.inj (Prod.mk.inj h).2).2
    · rw [if_neg hc] at h
      exact Option.noConfusion (Prod.mk.inj (Prod.mk.inj h).2).2
  · intro hid hc
    unfold Profile.loadNameHistory
    rw [if_pos hc]
    have hload : LoadWithNameHistory fetched p.id = .error .noSuchProfile := by
      unfold LoadWithNameHistory
      rw [if_pos hid]
    rw [hload]
    simp [hid]
  · intro hid hc
    unfold Profile.loadProperties
    rw [if_pos hc]
    have hload : LoadWithProperties fetched dec p.id = .error .noSuchProfile := by
      unfold LoadWithProperties
      rw [if_pos hid]
    rw [hload]
    simp [hid]

/-- C4 witness: a never-loaded profile with an empty ID returns itself
unchanged, a nil history/properties value and `ErrUnsetPlayerID`. -/
theorem c4_failed_reload_preserves_state_witness :
    (Profile.loadNameHistory (.ok (.arr [])) { id := "", name := "N" } false).2.2 =
      some .unsetPlayerID ∧
    (Profile.loadProperties (.ok (.arr [])) (fun _ => .error (.other "x"))
      { id := "", name := "N" } false).2.2 = some .unsetPlayerID ∧
    ∀ p2 hist e,
      Profile.loadNameHistory (.ok (.arr [])) { id := "", name := "N" } false =
        (p2, hist, some e) →
      p2 = ({ id := "", name := "N" } : Profile) ∧
        hist = ({ id := "", name := "N" } : Profile).nameHistory := by
  refine ⟨?_, ?_, ?_⟩
  · exact (c4_failed_reload_preserves_state (.ok (.arr []))
      (fun _ => .error (.other "x")) { id := "", name := "N" } false).2.2.1 rfl (Or.inl rfl)
  · exact (c4_failed_reload_preserves_state (.ok (.arr []))
      (fun _ => .error (.other "x")) { id := "", name := "N" } false).2.2.2 rfl (Or.inl rfl)
  · exact (c4_failed_reload_preserves_state (.ok (.arr []))
      (fun _ => .error (.other "x")) { id := "", name := "N" } false).1

/-- C9: nil is the only "not loaded" sentinel. A basic load of a payload
flagged `legacy: true` sets the profile's `NameHistory` to the explicit
empty, NON-nil sequence (`some []`, never `none`); and `fillProfile`
applies this legacy defaulting only while the target profile's
`NameHistory` is still nil — a profile whose history is already loaded
keeps it unchanged on any successful fill. -/
theorem c9_legacy_empty_history_sentinel :
    (∀ (id name : String) (endpoint : String),
      loadByName (.ok (.obj (profileFields id name none (some true)))) endpoint =
        .ok { id := id, name := name, nameHistory := some [], properties := none } ∧
      (some ([] : List PastName) ≠ none)) ∧
    (∀ (p : Profile) (m : List (String × Json)) (b : Bool) (p2 : Profile),
      fillProfile p m = .ok (b, p2) → p.nameHistory ≠ none →
      p2.nameHistory = p.nameHistory) ∧
    (∀ (p : Profile) (id name : String), p.nameHistory = none →
      fillProfile p (profileFields id name none (some true)) =
        .ok (true, { id := id, name := name, nameHistory := some [],
                     properties := p.properties })) := by
  refine ⟨?_, ?_, ?_⟩
  · intro id name endpoint
    constructor
    · unfold loadByName loadByNameParse
      simp only [asObj, buildProfile_profileFields]
      rfl
    · exact Option.noConfusion
  · intro p m b p2 h hnn
    unfold fillProfile at h
    have hrest : ∀ hr : fillProfileRest p m = .ok (b, p2), p2.nameHistory = p.nameHistory := by
      intro hr
      unfold fillProfileRest at hr
      cases h1 : asStrField m "id" with
      | error u =>
        rw [h1] at hr
        exact Except.noConfusion hr
      | ok id =>
        rw [h1] at hr
        cases h2 : asStrField m "name" with
        | error u =>
          rw [h2] at hr
          exact Except.noConfusion hr
        | ok name =>
          rw [h2] at hr
          rw [if_neg hnn] at hr
          have h4 : (Except.ok (true, Profile.mk id name p.nameHistory p.properties) :
              Except Unit (Bool × Profile)) = .ok (b, p2) := hr
          rw [← (Prod.mk.inj (Except.ok.inj h4)).2]
    cases h0 : List.lookup "demo" m with
    | none =>
      simp only [fillProfile, h0] at h
      exact hrest h
    | some t =>
      simp only [fillProfile, h0] at h
      cases h1 : asBool t with
      | error u =>
        simp only [h1] at h
        exact Except.noConfusion h
      | ok db =>
        simp only [h1] at h
        cases db with
        | true =>
          rw [if_pos rfl] at h
          have h4 : (false, p) = (b, p2) := Except.ok.inj h
          rw [← (Prod.mk.inj h4).2]
        | false =>
          rw [if_neg (by simp)] at h
          exact hrest h
  · intro p id name hnil
    unfold fillProfile fillProfileRest
    rw [show List.lookup "demo" (profileFields id name none (some true)) = none from rfl,
      show asStrField (profileFields id name none (some true)) "id" = .ok id from rfl,
      show asStrField (profileFields id name none (some true)) "name" = .ok name from rfl,
      if_pos hnil,
      show List.lookup "legacy" (profileFields id name none (some true)) =
        some (.bool true) from rfl]
    rfl

/-- C9 witness: a legacy basic load yields the explicit empty history; a
profile with an already-loaded two-name history keeps it across a fill;
a fresh profile acquires `some []` from a legacy payload. -/
theorem c9_legacy_empty_history_sentinel_witness :
    (loadByName (.ok (.obj (profileFields "i" "n" none (some true)))) (loadURL "n") =
      .ok { id := "i", name := "n", nameHistory := some [], properties := none }) ∧
    (∀ b p2, fillProfile
        { id := "i", name := "n", nameHistory := some [{ name := "old", untilTime := .zero }] }
        (profileFields "i" "n" none (some true)) = .ok (b, p2) →
      p2.nameHistory = some [{ name := "old", untilTime := .zero }]) ∧
    fillProfile { id := "", name := "" } (profileFields "i" "n" none (some true)) =
      .ok (true, { id := "i", name := "n", nameHistory := some [], properties := none }) := by
  refine ⟨?_, ?_, ?_⟩
  · exact (c9_legacy_empty_history_sentinel.1 "i" "n" (loadURL "n")).1
  · intro b p2 h
    exact c9_legacy_empty_history_sentinel.2.1 _ _ b p2 h (by simp)
  · exact c9_legacy_empty_history_sentinel.2.2 { id := "", name := "" } "i" "n" rfl

/-- C3: for every Store with a non-nil cache, a cache hit carrying
sufficient information for the requested operation (any hit for the plain
loads; a hit with non-nil `NameHistory` for the history load; a hit with
non-nil `Properties` for the properties load) is answered by a profile
synthesized from the entry with NO network call and NO cache writes;
otherwise the network loader runs: on success the full snapshot is written
to the cache (and the at-time variant additionally records the
name-at-time mapping), and on failure the error is propagated with
nothing written. -/
theorem c3_store_cache_policy :
    ∀ (c : Cache) (net : Except GoErr Profile) (username id : String) (tm : GoTime),
      (∀ e, c.getName username = some e →
        Store.load (some c) net username = (.ok (cToP e), noEffects)) ∧
      (c.getName username = none →
        (∀ err, net = .error err →
          Store.load (some c) net username = (.error err, netOnly)) ∧
        (∀ p, net = .ok p → Store.load (some c) net username =
          (.ok p, { networkCalled := true, cached := [pToC p], cachedNamesAtTime := [] }))) ∧
      (∀ e, c.getNameAtTime username tm = some e →
        Store.loadAtTime (some c) net username tm = (.ok (cToP e), noEffects)) ∧
      (c.getNameAtTime username tm = none →
        (∀ err, net = .error err →
          Store.loadAtTime (some c) net username tm = (.error err, netOnly)) ∧
        (∀ p, net = .ok p → Store.loadAtTime (some c) net username tm =
          (.ok p, { networkCalled := true, cached := [pToC p],
                    cachedNamesAtTime := [(username, tm, p.id)] }))) ∧
      (∀ e, c.getID id = some e →
        Store.loadByID (some c) net id = (.ok (cToP e), noEffects)) ∧
      (c.getID id = none →
        (∀ err, net = .error err →
          Store.loadByID (some c) net id = (.error err, netOnly)) ∧
        (∀ p, net = .ok p → Store.loadByID (some c) net id =
          (.ok p, { networkCalled := true, cached := [pToC p], cachedNamesAtTime := [] }))) ∧
      (∀ e, c.getID id = some e → e.nameHistory ≠ none →
        Store.loadWithNameHistory (some c) net id = (.ok (cToP e), noEffects)) ∧
      ((c.getID id = none ∨ ∃ e, c.getID id = some e ∧ e.nameHistory = none) →
        (∀ err, net = .error err →
          Store.loadWithNameHistory (some c) net id = (.error err, netOnly)) ∧
        (∀ p, net = .ok p → Store.loadWithNameHistory (some c) net id =
          (.ok p, { networkCalled := true, cached := [pToC p], cachedNamesAtTime := [] }))) ∧
      (∀ e, c.getID id = some e → e.properties ≠ none →
        Store.loadWithProperties (some c) net id = (.ok (cToP e), noEffects)) ∧
      ((c.getID id = none ∨ ∃ e, c.getID id = some e ∧ e.properties = none) →
        (∀ err, net = .error err →
          Store.loadWithProperties (some c) net id = (.error err, netOnly)) ∧
        (∀ p, net = .ok p → Store.loadWithProperties (some c) net id =
          (.ok p, { networkCalled := true, cached := [pToC p], cachedNamesAtTime := [] }))) := by
  intro c net username id tm
  refine ⟨?_, ?_, ?_, ?_, ?_, ?_, ?_, ?_, ?_, ?_⟩
  · intro e he
    simp [Store.load, he]
  · intro hmiss
    exact ⟨fun err herr => by simp [Store.load, hmiss, herr],
      fun p hp => by simp [Store.load, hmiss, hp]⟩
  · intro e he
    simp [Store.loadAtTime, he]
  · intro hmiss
    exact ⟨fun err herr => by simp [Store.loadAtTime, hmiss, herr],
      fun p hp => by simp [Store.loadAtTime, hmiss, hp]⟩
  · intro e he
    simp [Store.loadByID, he]
  · intro hmiss
    exact ⟨fun err herr => by simp [Store.loadByID, hmiss, herr],
      fun p hp => by simp [Store.loadByID, hmiss, hp]⟩
  · intro e he hh
    simp [Store.loadWithNameHistory, he, hh]
  · intro hmiss
    rcases hmiss with hnone | ⟨e, he, hins⟩
    · exact ⟨fun err herr => by simp [Store.loadWithNameHistory, hnone, herr],
        fun p hp => by simp [Store.loadWithNameHistory, hnone, hp]⟩
    · exact ⟨fun err herr => by simp [Store.loadWithNameHistory, he, hins, herr],
        fun p hp => by simp [Store.loadWithNameHistory, he, hins, hp]⟩
  · intro e he hh
    simp [Store.loadWithProperties, he, hh]
  · intro hmiss
    rcases hmiss with hnone | ⟨e, he, hins⟩
    · exact ⟨fun err herr => by simp [Store.loadWithProperties, hnone, herr],
        fun p hp => by simp [Store.loadWithProperties, hnone, hp]⟩
    · exact ⟨fun err herr => by simp [Store.loadWithProperties, he, hins, herr],
        fun p hp => by simp [Store.loadWithProperties, he, hins, hp]⟩

/-- A concrete cache for the C3 witness: one entry under ID "id1" with a
loaded (empty) name history and no properties. -/
def witnessCache : Cache :=
  { getName := fun _ => none,
    getNameAtTime := fun _ _ => none,
    getID := fun i => if i = "id1" then
      some { id := "id1", name := "N", nameHistory := some [], properties := none }
      else none }

/-- C3 witness: a sufficient history hit is served from the cache without
network; the same hit is insufficient for the properties load, so the
network error propagates with no cache write; an at-time miss with a
successful load writes both the snapshot and the name-at-time mapping. -/
theorem c3_store_cache_policy_witness :
    Store.loadWithNameHistory (some witnessCache) (.error .tooManyRequests) "id1" =
      (.ok (cToP { id := "id1", name := "N", nameHistory := some [], properties := none }),
        noEffects) ∧
    Store.loadWithProperties (some witnessCache) (.error .tooManyRequests) "id1" =
      (.error .tooManyRequests, netOnly) ∧
    Store.loadAtTime (some witnessCache) (.ok { id := "id2", name := "M" }) "user" .zero =
      (.ok { id := "id2", name := "M" },
        { networkCalled := true, cached := [pToC { id := "id2", name := "M" }],
          cachedNamesAtTime := [("user", .zero, "id2")] }) := by
  refine ⟨?_, ?_, ?_⟩
  · exact (c3_store_cache_policy witnessCache (.error .tooManyRequests) "" "id1" .zero).2.2.2.2.2.2.1
      _ rfl (by simp)
  · exact ((c3_store_cache_policy witnessCache (.error .tooManyRequests) "" "id1" .zero).2.2.2.2.2.2.2.2.2
      (Or.inr ⟨_, rfl, rfl⟩)).1 _ rfl
  · exact ((c3_store_cache_policy witnessCache (.ok { id := "id2", name := "M" }) "user" "" .zero).2.2.2.1
      rfl).2 _ rfl
